import Mathlib

/-!
# The AWS SSM Parameter Store provider of `vals` (`pkg/values/providers/ssm/ssm.go`)

A shallow embedding of the provider: its two caches, its lazily constructed
client handle, and the two lookups `GetString` and `GetStringMap`.

Modelling conventions.

* A Go `string` is a finite sequence of bytes (`GoString`); `len` is the number
  of bytes and `s[n:]` drops `n` bytes.
* A Go `map[string]V` that has been allocated is a finite partial function,
  embedded as `GoString → Option V`; `m[k]` with the comma-ok form is the
  application `m k`.
* Every effect that leaves the provider (constructing the client handle, a
  request to the remote store, a line on standard error) is recorded, in
  program order, in a trace of `Event`s.
* The remote store is a parameter: `Remote` gives, for the request a call
  would send, the answer the AWS SDK hands back.
* A run-time panic (nil dereference, slice bounds) is an explicit outcome.
-/

namespace ssm

/-! ## Go values -/

/-- A Go `string`: a sequence of bytes. -/
abbrev GoString := List UInt8

/-- The bytes of a string literal of the source (its UTF-8 encoding). -/
def utf8 (s : String) : GoString := s.data.flatMap String.utf8EncodeChar

/-- An allocated Go `map[string]V`. -/
abbrev GoMap (V : Type) := GoString → Option V

/-- The map literal `map[string]V{}`. -/
def GoMap.empty {V : Type} : GoMap V := fun _ => none

/-- The assignment `m[k] = v`. -/
def GoMap.set {V : Type} (m : GoMap V) (k : GoString) (v : V) : GoMap V :=
  fun k' => if k' = k then some v else m k'

/-- A Go `interface{}` value stored in a result mapping: a string (the only
dynamic type the provider itself ever stores) or a value of some other dynamic
type, identified by a tag. -/
inductive Iface where
  | str (s : GoString)
  | other (tag : Nat)
deriving DecidableEq

/-- A Go value of type `map[string]interface{}`: `none` is the nil map. -/
abbrev AnyMap := Option (GoMap Iface)

/-- A Go `error` value, identified by the text its `Error()` method returns. -/
structure GoError where
  Error : GoString
deriving DecidableEq

/-- The call `errors.New(text)`. -/
def errors.New (text : GoString) : GoError := ⟨text⟩

/-- The call `fmt.Errorf(pre + "%v", err)` for a format whose only verb is a
final `%v` applied to an error: the verb prints `err.Error()`. -/
def fmt.Errorf (pre : GoString) (err : GoError) : GoError := ⟨pre ++ err.Error⟩

/-! ## `strings.TrimSpace` (Go standard library) -/

/-- The constant `utf8.RuneError`. -/
def RuneError : Nat := 0xFFFD

/-- The constant `utf8.RuneSelf`. -/
def RuneSelf : Nat := 0x80

/-- A UTF-8 continuation byte (`locb ≤ b ≤ hicb`). -/
def isCont (b : Nat) : Bool := 0x80 ≤ b && b ≤ 0xBF

/-- The function `utf8.DecodeRuneInString`: the first rune of `s` and its width
in bytes; `(RuneError, 0)` for the empty string and `(RuneError, 1)` for an
invalid encoding. -/
def DecodeRuneInString : GoString → Nat × Nat
  | [] => (RuneError, 0)
  | c0 :: rest =>
    let s0 := c0.toNat
    if s0 < RuneSelf then (s0, 1)
    else if s0 < 0xC2 then (RuneError, 1)
    else if s0 < 0xE0 then
      match rest with
      | c1 :: _ =>
        let s1 := c1.toNat
        if isCont s1 then ((s0 % 0x20) * 0x40 + s1 % 0x40, 2) else (RuneError, 1)
      | _ => (RuneError, 1)
    else if s0 < 0xF0 then
      match rest with
      | c1 :: c2 :: _ =>
        let s1 := c1.toNat
        let s2 := c2.toNat
        let lo := if s0 = 0xE0 then 0xA0 else 0x80
        let hi := if s0 = 0xED then 0x9F else 0xBF
        if s1 < lo || hi < s1 then (RuneError, 1)
        else if !isCont s2 then (RuneError, 1)
        else ((s0 % 0x10) * 0x1000 + (s1 % 0x40) * 0x40 + s2 % 0x40, 3)
      | _ => (RuneError, 1)
    else if s0 < 0xF5 then
      match rest with
      | c1 :: c2 :: c3 :: _ =>
        let s1 := c1.toNat
        let s2 := c2.toNat
        let s3 := c3.toNat
        let lo := if s0 = 0xF0 then 0x90 else 0x80
        let hi := if s0 = 0xF4 then 0x8F else 0xBF
        if s1 < lo || hi < s1 then (RuneError, 1)
        else if !isCont s2 then (RuneError, 1)
        else if !isCont s3 then (RuneError, 1)
        else ((s0 % 0x08) * 0x40000 + (s1 % 0x40) * 0x1000 + (s2 % 0x40) * 0x40 + s3 % 0x40, 4)
      | _ => (RuneError, 1)
    else (RuneError, 1)

/-- The function `utf8.RuneStart`: the byte is not a continuation byte. -/
def RuneStart (b : Nat) : Bool := !isCont b

/-- The backward scan of `utf8.DecodeLastRuneInString`:
`for start--; start >= lim; start-- { if RuneStart(s[start]) { break } }`,
entered with `start` already decremented. At most `UTFMax` positions are
visited, which is the fuel the caller gives. -/
def scanRuneStart (s : GoString) (lim : Int) : Nat → Int → Int
  | 0, start => start
  | fuel + 1, start =>
    if start ≥ lim then
      if RuneStart (s.getD start.toNat 0).toNat then start
      else scanRuneStart s lim fuel (start - 1)
    else start

/-- The function `utf8.DecodeLastRuneInString`: the last rune of `s` and its
width in bytes. -/
def DecodeLastRuneInString (s : GoString) : Nat × Nat :=
  let n := s.length
  if n = 0 then (RuneError, 0)
  else
    let r := (s.getD (n - 1) 0).toNat
    if r < RuneSelf then (r, 1)
    else
      let lim : Int := max 0 ((n : Int) - 4)
      let start := scanRuneStart s lim 4 ((n : Int) - 2)
      let start := if start < 0 then 0 else start
      let (r, size) := DecodeRuneInString (s.drop start.toNat)
      if start.toNat + size ≠ n then (RuneError, 1) else (r, size)

/-- The function `unicode.IsSpace`: the code points with the Unicode
`White_Space` property. -/
def IsSpace (r : Nat) : Bool :=
  (0x09 ≤ r && r ≤ 0x0D) || r = 0x20 || r = 0x85 || r = 0xA0 || r = 0x1680 ||
  (0x2000 ≤ r && r ≤ 0x200A) || r = 0x2028 || r = 0x2029 || r = 0x202F ||
  r = 0x205F || r = 0x3000

/-- The function `strings.TrimLeftFunc(s, unicode.IsSpace)`: runes are dropped
from the front while they are white space. Every step on a non-empty string
drops at least one byte, so `len(s)` steps of fuel reach the end. -/
def trimLeftSpace : Nat → GoString → GoString
  | 0, s => s
  | fuel + 1, s =>
    match s with
    | [] => []
    | _ :: _ =>
      let (r, size) := DecodeRuneInString s
      if IsSpace r then trimLeftSpace fuel (s.drop size) else s

/-- The search `lastIndexFunc(s[0:i], unicode.IsSpace, false)` of package
`strings`: the byte index at which the last rune that is not white space
starts, `none` for the `-1` of the source. -/
def lastIndexNotSpace (s : GoString) : Nat → Nat → Option Nat
  | 0, _ => none
  | fuel + 1, i =>
    if i = 0 then none
    else
      let (r, size) := DecodeLastRuneInString (s.take i)
      if IsSpace r then lastIndexNotSpace s fuel (i - size) else some (i - size)

/-- The function `strings.TrimRightFunc(s, unicode.IsSpace)`. -/
def trimRightSpace (s : GoString) : GoString :=
  match lastIndexNotSpace s s.length s.length with
  | none => []
  | some i =>
    if RuneSelf ≤ (s.getD i 0).toNat then s.take (i + (DecodeRuneInString (s.drop i)).2)
    else s.take (i + 1)

/-- The function `strings.TrimSpace`: `s` without its leading and trailing
white space, as defined by Unicode. -/
def TrimSpace (s : GoString) : GoString :=
  trimRightSpace (trimLeftSpace s.length s)

/-! ## The AWS SDK surface the provider uses -/

/-- The SDK type `aws.Config`, reduced to the one field the provider sets. -/
structure Config where
  Region : Option GoString
deriving DecidableEq

/-- The call `aws.NewConfig()`: the default configuration. -/
def NewConfig : Config := ⟨none⟩

/-- The method `(*aws.Config).WithRegion`. -/
def Config.WithRegion (c : Config) (region : GoString) : Config :=
  { c with Region := some region }

/-- The SDK type `session.Session`: a session remembers its configuration. -/
structure Session where
  Config : ssm.Config
deriving DecidableEq

/-- The call `session.New(cfg)`. -/
def session.New (cfg : Config) : Session := ⟨cfg⟩

/-- The SDK type `ssm.SSM`: the client handle, built over a session. -/
structure SSM where
  Session : ssm.Session
deriving DecidableEq

/-- The call `ssm.New(sess)`. -/
def SSM.New (sess : ssm.Session) : SSM := ⟨sess⟩

/-- The SDK type `ssm.GetParameterInput` (pointer fields are options). -/
structure GetParameterInput where
  Name : Option GoString
  WithDecryption : Option Bool
deriving DecidableEq

/-- The SDK type `ssm.Parameter`, reduced to the fields the provider reads. -/
structure Parameter where
  Name : Option GoString
  Value : Option GoString
deriving DecidableEq

/-- The SDK type `ssm.GetParameterOutput`; the field is a pointer, `none` when
nil. -/
structure GetParameterOutput where
  Parameter : Option ssm.Parameter
deriving DecidableEq

/-- The SDK type `ssm.GetParametersByPathInput`. -/
structure GetParametersByPathInput where
  Path : Option GoString
  WithDecryption : Option Bool
deriving DecidableEq

/-- The SDK type `ssm.GetParametersByPathOutput`; `Parameters` is a slice of
pointers. -/
structure GetParametersByPathOutput where
  Parameters : List (Option ssm.Parameter)
deriving DecidableEq

/-- The behaviour of the remote store towards one call of the provider: what
the two SDK methods hand back for a given client handle and request. The SDK
always returns an allocated output structure; the error is `none` for nil. -/
structure Remote where
  GetParameter : SSM → GetParameterInput → GetParameterOutput × Option GoError
  GetParametersByPath :
    SSM → GetParametersByPathInput → GetParametersByPathOutput × Option GoError

/-- What a call does outside the provider, in program order. -/
inductive Event where
  /-- A client handle is constructed: `ssm.New(session.New(cfg))`. -/
  | newClient (cfg : Config)
  /-- The remote request `ssmClient.GetParameter(&in)`. -/
  | getParameter (client : SSM) (inp : GetParameterInput)
  /-- The remote request `ssmClient.GetParametersByPath(&in)`. -/
  | getParametersByPath (client : SSM) (inp : GetParametersByPathInput)
  /-- A line written to `os.Stderr`. -/
  | stderr (line : GoString)
deriving DecidableEq

/-- The event is a request to the remote store. -/
def Event.isRequest : Event → Bool
  | .getParameter _ _ => true
  | .getParametersByPath _ _ => true
  | _ => false

/-- The event is the construction of a client handle. -/
def Event.isNewClient : Event → Bool
  | .newClient _ => true
  | _ => false

/-- Why a call panicked. -/
inductive Panic where
  /-- A nil pointer was dereferenced. -/
  | nilDereference
  /-- Slice bounds out of range. -/
  | sliceBounds
deriving DecidableEq

/-- How a call of a Go function with results `(α, error)` ends. -/
inductive Result (α : Type) where
  | ret (val : α) (err : Option GoError)
  | panic (why : Panic)
deriving DecidableEq

/-! ## The provider -/

/-- The struct `provider`. `ssmClient` is `none` while the pointer is nil. The
two caches are allocated maps: `New`, the only constructor, allocates both and
no code assigns the fields afterwards. -/
structure provider where
  ssmClient : Option SSM
  paramsCache : GoMap GoString
  mapCache : GoMap AnyMap
  Region : GoString
  Format : GoString

/-- A call's outcome: its result, the provider afterwards and what it did
outside the provider. -/
structure Run (α : Type) where
  result : Result α
  p : provider
  trace : List Event

/-- The interface `api.StaticConfig`, reduced to the method `New` calls. -/
structure StaticConfig where
  String : GoString → GoString

/-- The function `New`. -/
def New (cfg : StaticConfig) : provider :=
  { ssmClient := none
    paramsCache := GoMap.empty
    mapCache := GoMap.empty
    Region := cfg.String (utf8 "region")
    Format := [] }

/-- The method `debugf`, for a format whose only verb is a final `%s`:
`fmt.Fprintf(os.Stderr, msg+"\n", args...)`. The write's own result is
discarded by the source. -/
def provider.debugf (_p : provider) (msg : GoString) (arg : GoString) : List Event :=
  [Event.stderr (msg ++ arg ++ utf8 "\n")]

/-- The method `getSSMClient`: the handle, the provider afterwards, and the
construction event when a handle had to be built. -/
def provider.getSSMClient (p : provider) : SSM × provider × List Event :=
  match p.ssmClient with
  | some c => (c, p, [])
  | none =>
    let cfg := if p.Region ≠ [] then NewConfig.WithRegion p.Region else NewConfig
    let sess := session.New cfg
    let c := SSM.New sess
    (c, { p with ssmClient := some c }, [Event.newClient cfg])

/-- The method `GetString`. -/
def provider.GetString (up : Remote) (p : provider) (key : GoString) : Run GoString :=
  let cachedVal := (p.paramsCache key).getD []
  let ok := (p.paramsCache key).isSome
  if ok && decide (TrimSpace cachedVal ≠ []) then
    ⟨.ret cachedVal none, p, []⟩
  else
    let (ssmClient, p1, t1) := p.getSSMClient
    let inp : GetParameterInput := { Name := some key, WithDecryption := some true }
    let (out, err) := up.GetParameter ssmClient inp
    let t2 := t1 ++ [Event.getParameter ssmClient inp]
    match err with
    | some e => ⟨.ret [] (some (fmt.Errorf (utf8 "get parameter: ") e)), p1, t2⟩
    | none =>
      match out.Parameter with
      | none =>
        ⟨.ret [] (some (errors.New (utf8 "datasource.ssm.Get() out.Parameter is nil"))), p1, t2⟩
      | some param =>
        match param.Value with
        | none =>
          ⟨.ret [] (some (errors.New (utf8 "datasource.ssm.Get() out.Parameter.Value is nil"))),
            p1, t2⟩
        | some v =>
          let p2 := { p1 with paramsCache := p1.paramsCache.set key v }
          let val := (p2.paramsCache key).getD []
          ⟨.ret val none, p2,
            t2 ++ p2.debugf (utf8 "SSM: successfully retrieved key=") key⟩

/-- The loop of `GetStringMap` over `out.Parameters`:
`name := *param.Name; name = name[len(key)+1:]; res[name] = *param.Value`. -/
def fillMap (key : GoString) : List (Option Parameter) → GoMap Iface → Except Panic (GoMap Iface)
  | [], res => .ok res
  | param :: rest, res =>
    match param with
    | none => .error .nilDereference
    | some prm =>
      match prm.Name with
      | none => .error .nilDereference
      | some name =>
        if name.length < key.length + 1 then .error .sliceBounds
        else
          let name := name.drop (key.length + 1)
          match prm.Value with
          | none => .error .nilDereference
          | some v => fillMap key rest (res.set name (Iface.str v))

/-- The method `GetStringMap`. -/
def provider.GetStringMap (up : Remote) (p : provider) (key : GoString) : Run AnyMap :=
  match p.mapCache key with
  | some cachedVal => ⟨.ret cachedVal none, p, []⟩
  | none =>
    let (ssmClient, p1, t1) := p.getSSMClient
    let res : GoMap Iface := GoMap.empty
    let inp : GetParametersByPathInput := { Path := some key, WithDecryption := some true }
    let (out, err) := up.GetParametersByPath ssmClient inp
    let t2 := t1 ++ [Event.getParametersByPath ssmClient inp]
    match err with
    | some e => ⟨.ret none (some (fmt.Errorf (utf8 "ssm: get parameters by path: ") e)), p1, t2⟩
    | none =>
      if out.Parameters.length = 0 then
        ⟨.ret none (some (errors.New (utf8 "ssm: out.Parameters is empty"))), p1, t2⟩
      else
        match fillMap key out.Parameters res with
        | .error why => ⟨.panic why, p1, t2⟩
        | .ok res =>
          let p2 := { p1 with mapCache := p1.mapCache.set key (some res) }
          let val := (p2.mapCache key).getD none
          ⟨.ret val none, p2,
            t2 ++ p2.debugf (utf8 "SSM: successfully retrieved key=") key⟩

/-! ## Vocabulary of the statements -/

/-- The condition of the first `if` of `GetString`: the scalar cache holds an
entry for `key` that is not empty after trimming. -/
def provider.scalarCached (p : provider) (key : GoString) : Bool :=
  (p.paramsCache key).isSome && decide (TrimSpace ((p.paramsCache key).getD []) ≠ [])

/-- The condition of the first `if` of `GetStringMap`: the mapping cache holds
an entry for `key`. -/
def provider.mapCached (p : provider) (key : GoString) : Bool :=
  (p.mapCache key).isSome

/-- The request `GetString` builds for `key`. -/
def getParameterInput (key : GoString) : GetParameterInput :=
  { Name := some key, WithDecryption := some true }

/-- The request `GetStringMap` builds for `key`. -/
def getParametersByPathInput (key : GoString) : GetParametersByPathInput :=
  { Path := some key, WithDecryption := some true }

/-- The trace holds a request to the remote store. -/
def issuesRequest (t : List Event) : Bool := t.any Event.isRequest

/-- The trace holds the construction of a client handle. -/
def constructsClient (t : List Event) : Bool := t.any Event.isNewClient

/-- The client handle a request of the trace was sent through. -/
def Event.client? : Event → Option SSM
  | .getParameter c _ => some c
  | .getParametersByPath c _ => some c
  | _ => none

/-- The configuration `getSSMClient` builds for a region string. -/
def configFor (region : GoString) : Config :=
  if region ≠ [] then NewConfig.WithRegion region else NewConfig

/-- An upstream listing under `key`: one entry per pair `(shortName, value)`,
named `key + "/" + shortName`. -/
def listing (key : GoString) (entries : List (GoString × GoString)) : List (Option Parameter) :=
  entries.map fun e => some { Name := some (key ++ utf8 "/" ++ e.1), Value := some e.2 }

/-- The mapping that holds exactly the pairs of `entries`, a later pair
overriding an earlier one with the same short name. -/
def pairsMap (entries : List (GoString × GoString)) : GoMap Iface :=
  fun short => (entries.reverse.find? fun e => e.1 = short).map fun e => Iface.str e.2

/-- One call on the provider, with the behaviour of the remote store at the
time of the call. -/
inductive Call where
  | getString (up : Remote) (key : GoString)
  | getStringMap (up : Remote) (key : GoString)

/-- The call is answered from its cache in state `p`. -/
def Call.cached (c : Call) (p : provider) : Bool :=
  match c with
  | .getString _ key => p.scalarCached key
  | .getStringMap _ key => p.mapCached key

/-- The provider after the call and the call's trace. A caller that recovers
from a panic goes on with the provider as the panic left it. -/
def Call.run (c : Call) (p : provider) : provider × List Event :=
  match c with
  | .getString up key => ((p.GetString up key).p, (p.GetString up key).trace)
  | .getStringMap up key => ((p.GetStringMap up key).p, (p.GetStringMap up key).trace)

/-- What is recorded of one call of a sequence: whether its cache answered, and
its trace. -/
structure Step where
  cached : Bool
  trace : List Event

/-- A sequence of calls on one provider, one `Step` per call. -/
def runCalls : List Call → provider → List Step
  | [], _ => []
  | c :: cs, p => ⟨c.cached p, (c.run p).2⟩ :: runCalls cs (c.run p).1

/-- The precondition of the loop of `GetStringMap` on one entry of the
listing: the entry, its name and its value are present, and the name has at
least `len(key)+1` bytes. -/
def longNamed (key : GoString) : Option Parameter → Bool
  | some ⟨some name, some _⟩ => decide (key.length + 1 ≤ name.length)
  | _ => false

/-- Every event of a sequence of calls, in program order. -/
def allEvents (steps : List Step) : List Event := steps.flatMap Step.trace

/-- How many client handles a sequence of calls constructs. -/
def constructions (steps : List Step) : Nat := (allEvents steps).countP Event.isNewClient

/-! ## Concrete inputs -/

/-- A configuration without a region. -/
def noRegion : StaticConfig := ⟨fun _ => []⟩

/-- A configuration whose every lookup answers `eu-west-1`. -/
def euWest : StaticConfig := ⟨fun _ => utf8 "eu-west-1"⟩

/-- A remote store that answers every single-value request with the value
`val` and every listing with `params`. -/
def answering (val : GoString) (params : List (Option Parameter)) : Remote :=
  { GetParameter := fun _ inp => (⟨some ⟨inp.Name, some val⟩⟩, none)
    GetParametersByPath := fun _ _ => (⟨params⟩, none) }

/-- A remote store that fails every request with the error `cause`. -/
def failing (cause : GoString) : Remote :=
  { GetParameter := fun _ _ => (⟨none⟩, some ⟨cause⟩)
    GetParametersByPath := fun _ _ => (⟨[]⟩, some ⟨cause⟩) }

/-- A remote store whose single-value answer has the given result container. -/
def containing (prm : Option Parameter) : Remote :=
  { GetParameter := fun _ _ => (⟨prm⟩, none)
    GetParametersByPath := fun _ _ => (⟨[]⟩, none) }

/-- A provider whose scalar cache holds `k ↦ v` and whose mapping cache holds
the empty mapping for `k`. -/
def warm : provider :=
  { New noRegion with
    paramsCache := GoMap.empty.set (utf8 "k") (utf8 "v")
    mapCache := GoMap.empty.set (utf8 "k") (some GoMap.empty) }

/-- The listing of the prefix-stripping example: two entries under
`/app/prod`. -/
def appProd : List (GoString × GoString) :=
  [(utf8 "db_host", utf8 "h"), (utf8 "db_port", utf8 "5432")]

/-- Three calls on two keys: a scalar fetched, a listing that fails, the scalar
asked again. -/
def threeCalls : List Call :=
  [Call.getString (answering (utf8 "x") []) (utf8 "a"),
   Call.getStringMap (failing (utf8 "down")) (utf8 "b"),
   Call.getString (failing (utf8 "down")) (utf8 "a")]

/-! ## The two caches and the client accessor -/

theorem getSSMClient_paramsCache (p : provider) :
    p.getSSMClient.2.1.paramsCache = p.paramsCache := by
  unfold provider.getSSMClient; split <;> rfl

theorem getSSMClient_mapCache (p : provider) :
    p.getSSMClient.2.1.mapCache = p.mapCache := by
  unfold provider.getSSMClient; split <;> rfl

theorem getSSMClient_Region (p : provider) :
    p.getSSMClient.2.1.Region = p.Region := by
  unfold provider.getSSMClient; split <;> rfl

theorem getSSMClient_ssmClient (p : provider) :
    p.getSSMClient.2.1.ssmClient = some p.getSSMClient.1 := by
  unfold provider.getSSMClient; split
  · next c h => simpa using h
  · rfl

theorem getSSMClient_of_some (p : provider) (c : SSM) (h : p.ssmClient = some c) :
    p.getSSMClient = (c, p, []) := by
  unfold provider.getSSMClient; simp [h]

theorem getSSMClient_of_none (p : provider) (h : p.ssmClient = none) :
    p.getSSMClient =
      (SSM.New (session.New (configFor p.Region)),
        { p with ssmClient := some (SSM.New (session.New (configFor p.Region))) },
        [Event.newClient (configFor p.Region)]) := by
  unfold provider.getSSMClient configFor; simp [h]

theorem scalarCached_iff (p : provider) (key : GoString) :
    p.scalarCached key = true ↔ ∃ v, p.paramsCache key = some v ∧ TrimSpace v ≠ [] := by
  unfold provider.scalarCached
  cases h : p.paramsCache key <;> simp

theorem scalarCached_false_iff (p : provider) (key : GoString) :
    p.scalarCached key = false ↔
      (p.paramsCache key = none ∨ ∃ v, p.paramsCache key = some v ∧ TrimSpace v = []) := by
  unfold provider.scalarCached
  cases h : p.paramsCache key <;> simp

/-! ## `GetString`, path by path -/

theorem GetString_cached (up : Remote) (p : provider) (key : GoString)
    (h : p.scalarCached key = true) :
    p.GetString up key = ⟨.ret ((p.paramsCache key).getD []) none, p, []⟩ := by
  unfold provider.scalarCached at h
  unfold provider.GetString
  simp only [h, if_true]

theorem GetString_err (up : Remote) (p : provider) (key : GoString)
    (out : GetParameterOutput) (e : GoError)
    (h : p.scalarCached key = false)
    (hup : up.GetParameter p.getSSMClient.1 (getParameterInput key) = (out, some e)) :
    p.GetString up key =
      ⟨.ret [] (some (fmt.Errorf (utf8 "get parameter: ") e)), p.getSSMClient.2.1,
        p.getSSMClient.2.2 ++ [Event.getParameter p.getSSMClient.1 (getParameterInput key)]⟩ := by
  unfold provider.scalarCached at h
  unfold getParameterInput at hup
  unfold provider.GetString
  simp only [h, hup, getParameterInput]
  simp

theorem GetString_nilParameter (up : Remote) (p : provider) (key : GoString)
    (h : p.scalarCached key = false)
    (hup : up.GetParameter p.getSSMClient.1 (getParameterInput key) = (⟨none⟩, none)) :
    p.GetString up key =
      ⟨.ret [] (some (errors.New (utf8 "datasource.ssm.Get() out.Parameter is nil"))),
        p.getSSMClient.2.1,
        p.getSSMClient.2.2 ++ [Event.getParameter p.getSSMClient.1 (getParameterInput key)]⟩ := by
  unfold provider.scalarCached at h
  unfold getParameterInput at hup
  unfold provider.GetString
  simp only [h, hup, getParameterInput]
  simp

theorem GetString_nilValue (up : Remote) (p : provider) (key : GoString) (prm : Parameter)
    (h : p.scalarCached key = false)
    (hup : up.GetParameter p.getSSMClient.1 (getParameterInput key) = (⟨some prm⟩, none))
    (hv : prm.Value = none) :
    p.GetString up key =
      ⟨.ret [] (some (errors.New (utf8 "datasource.ssm.Get() out.Parameter.Value is nil"))),
        p.getSSMClient.2.1,
        p.getSSMClient.2.2 ++ [Event.getParameter p.getSSMClient.1 (getParameterInput key)]⟩ := by
  unfold provider.scalarCached at h
  unfold getParameterInput at hup
  unfold provider.GetString
  simp only [h, hup, getParameterInput, hv]
  simp

theorem GetString_ok (up : Remote) (p : provider) (key : GoString)
    (prm : Parameter) (v : GoString)
    (h : p.scalarCached key = false)
    (hup : up.GetParameter p.getSSMClient.1 (getParameterInput key) = (⟨some prm⟩, none))
    (hv : prm.Value = some v) :
    p.GetString up key =
      ⟨.ret v none, { p.getSSMClient.2.1 with paramsCache := p.paramsCache.set key v },
        p.getSSMClient.2.2 ++ [Event.getParameter p.getSSMClient.1 (getParameterInput key),
          Event.stderr (utf8 "SSM: successfully retrieved key=" ++ key ++ utf8 "\n")]⟩ := by
  unfold provider.scalarCached at h
  unfold getParameterInput at hup
  unfold provider.GetString
  simp only [h, hup, getParameterInput, hv]
  simp [GoMap.set, provider.debugf, getSSMClient_paramsCache]

/-! ## `GetStringMap`, path by path -/

theorem GetStringMap_cached (up : Remote) (p : provider) (key : GoString) (m : AnyMap)
    (h : p.mapCache key = some m) :
    p.GetStringMap up key = ⟨.ret m none, p, []⟩ := by
  unfold provider.GetStringMap
  simp only [h]

theorem GetStringMap_err (up : Remote) (p : provider) (key : GoString)
    (out : GetParametersByPathOutput) (e : GoError)
    (h : p.mapCache key = none)
    (hup : up.GetParametersByPath p.getSSMClient.1 (getParametersByPathInput key)
      = (out, some e)) :
    p.GetStringMap up key =
      ⟨.ret none (some (fmt.Errorf (utf8 "ssm: get parameters by path: ") e)),
        p.getSSMClient.2.1,
        p.getSSMClient.2.2 ++
          [Event.getParametersByPath p.getSSMClient.1 (getParametersByPathInput key)]⟩ := by
  unfold getParametersByPathInput at hup
  unfold provider.GetStringMap
  simp only [h, hup, getParametersByPathInput]

theorem GetStringMap_empty (up : Remote) (p : provider) (key : GoString)
    (h : p.mapCache key = none)
    (hup : up.GetParametersByPath p.getSSMClient.1 (getParametersByPathInput key)
      = (⟨[]⟩, none)) :
    p.GetStringMap up key =
      ⟨.ret none (some (errors.New (utf8 "ssm: out.Parameters is empty"))),
        p.getSSMClient.2.1,
        p.getSSMClient.2.2 ++
          [Event.getParametersByPath p.getSSMClient.1 (getParametersByPathInput key)]⟩ := by
  unfold getParametersByPathInput at hup
  unfold provider.GetStringMap
  simp only [h, hup, getParametersByPathInput]
  simp

theorem GetStringMap_panic (up : Remote) (p : provider) (key : GoString)
    (params : List (Option Parameter)) (why : Panic)
    (h : p.mapCache key = none)
    (hup : up.GetParametersByPath p.getSSMClient.1 (getParametersByPathInput key)
      = (⟨params⟩, none))
    (hne : params ≠ [])
    (hfill : fillMap key params GoMap.empty = .error why) :
    p.GetStringMap up key =
      ⟨.panic why, p.getSSMClient.2.1,
        p.getSSMClient.2.2 ++
          [Event.getParametersByPath p.getSSMClient.1 (getParametersByPathInput key)]⟩ := by
  unfold getParametersByPathInput at hup
  unfold provider.GetStringMap
  simp only [h, hup, getParametersByPathInput, hfill]
  simp [hne]

theorem GetStringMap_ok (up : Remote) (p : provider) (key : GoString)
    (params : List (Option Parameter)) (res : GoMap Iface)
    (h : p.mapCache key = none)
    (hup : up.GetParametersByPath p.getSSMClient.1 (getParametersByPathInput key)
      = (⟨params⟩, none))
    (hne : params ≠ [])
    (hfill : fillMap key params GoMap.empty = .ok res) :
    p.GetStringMap up key =
      ⟨.ret (some res) none,
        { p.getSSMClient.2.1 with mapCache := p.mapCache.set key (some res) },
        p.getSSMClient.2.2 ++
          [Event.getParametersByPath p.getSSMClient.1 (getParametersByPathInput key),
            Event.stderr (utf8 "SSM: successfully retrieved key=" ++ key ++ utf8 "\n")]⟩ := by
  unfold getParametersByPathInput at hup
  unfold provider.GetStringMap
  simp only [h, hup, getParametersByPathInput, hfill]
  simp [hne, GoMap.set, provider.debugf, getSSMClient_mapCache]

theorem utf8_slash : utf8 "/" = [47] := by decide

theorem drop_key_slash (key short : GoString) :
    (key ++ utf8 "/" ++ short).drop (key.length + 1) = short := by
  rw [utf8_slash, List.append_assoc]
  rw [List.drop_append_eq_append_drop]
  simp

theorem length_key_slash (key short : GoString) :
    ¬ (key ++ utf8 "/" ++ short).length < key.length + 1 := by
  rw [utf8_slash]; simp

theorem fillMap_listing (key : GoString) (entries : List (GoString × GoString))
    (res : GoMap Iface) :
    fillMap key (listing key entries) res =
      .ok (entries.foldl (fun m e => m.set e.1 (Iface.str e.2)) res) := by
  induction entries generalizing res with
  | nil => rfl
  | cons e es ih =>
    simp only [listing, List.map_cons, fillMap, List.foldl_cons]
    rw [if_neg (length_key_slash key e.1), drop_key_slash]
    exact ih _

theorem foldl_set_apply (entries : List (GoString × GoString)) (res : GoMap Iface)
    (short : GoString) :
    (entries.foldl (fun m e => m.set e.1 (Iface.str e.2)) res) short =
      match entries.reverse.find? fun e => e.1 = short with
      | some e => some (Iface.str e.2)
      | none => res short := by
  induction entries generalizing res with
  | nil => rfl
  | cons e es ih =>
    rw [List.foldl_cons, ih, List.reverse_cons, List.find?_append]
    cases h : es.reverse.find? fun e => e.1 = short with
    | some e' => simp
    | none =>
      by_cases hs : e.1 = short
      · simp [GoMap.set, hs]
      · have hs' : ¬ short = e.1 := fun h => hs h.symm
        simp [GoMap.set, hs, hs']

theorem foldl_set_empty (entries : List (GoString × GoString)) :
    entries.foldl (fun m e => m.set e.1 (Iface.str e.2)) GoMap.empty = pairsMap entries := by
  funext short
  rw [foldl_set_apply]
  unfold pairsMap
  cases h : entries.reverse.find? fun e => e.1 = short <;> simp [GoMap.empty]

theorem GetString_success (up : Remote) (p : provider) (key v : GoString)
    (h : (p.GetString up key).result = .ret v none) :
    (p.paramsCache key = some v ∧ TrimSpace v ≠ [] ∧ p.scalarCached key = true) ∨
    (p.scalarCached key = false ∧ ∃ prm,
      up.GetParameter p.getSSMClient.1 (getParameterInput key) = (⟨some prm⟩, none) ∧
      prm.Value = some v) := by
  cases hc : p.scalarCached key with
  | true =>
    left
    rw [GetString_cached up p key hc] at h
    obtain ⟨w, hw, hwt⟩ := (scalarCached_iff p key).1 hc
    simp [hw] at h
    subst h
    exact ⟨hw, hwt, rfl⟩
  | false =>
    right
    refine ⟨rfl, ?_⟩
    rcases hup : up.GetParameter p.getSSMClient.1 (getParameterInput key) with ⟨out, err⟩
    cases err with
    | some e => rw [GetString_err up p key out e hc hup] at h; simp at h
    | none =>
      rcases out with ⟨prm⟩
      cases prm with
      | none => rw [GetString_nilParameter up p key hc hup] at h; simp at h
      | some prm =>
        cases hv : prm.Value with
        | none => rw [GetString_nilValue up p key prm hc hup hv] at h; simp at h
        | some w =>
          rw [GetString_ok up p key prm w hc hup hv] at h
          simp at h
          subst h
          exact ⟨prm, rfl, hv⟩

theorem GetStringMap_success (up : Remote) (p : provider) (key : GoString) (m : AnyMap)
    (h : (p.GetStringMap up key).result = .ret m none) :
    p.mapCache key = some m ∨
    (p.mapCache key = none ∧ ∃ params res,
      up.GetParametersByPath p.getSSMClient.1 (getParametersByPathInput key)
        = (⟨params⟩, none) ∧
      params ≠ [] ∧ fillMap key params GoMap.empty = .ok res ∧ m = some res) := by
  cases hc : p.mapCache key with
  | some w =>
    left
    rw [GetStringMap_cached up p key w hc] at h
    simp at h
    rw [h]
  | none =>
    right
    refine ⟨rfl, ?_⟩
    rcases hup : up.GetParametersByPath p.getSSMClient.1 (getParametersByPathInput key)
      with ⟨out, err⟩
    cases err with
    | some e => rw [GetStringMap_err up p key out e hc hup] at h; simp at h
    | none =>
      rcases out with ⟨params⟩
      by_cases hne : params = []
      · subst hne
        rw [GetStringMap_empty up p key hc hup] at h; simp at h
      · cases hf : fillMap key params GoMap.empty with
        | error why => rw [GetStringMap_panic up p key params why hc hup hne hf] at h; simp at h
        | ok res =>
          rw [GetStringMap_ok up p key params res hc hup hne hf] at h
          simp at h
          exact ⟨params, res, rfl, hne, hf, h.symm⟩

theorem GetString_uncached_shape (up : Remote) (p : provider) (key : GoString)
    (h : p.scalarCached key = false) :
    ∃ rest, (p.GetString up key).trace =
        p.getSSMClient.2.2 ++ Event.getParameter p.getSSMClient.1 (getParameterInput key) :: rest ∧
      (∀ e ∈ rest, e.isRequest = false ∧ e.isNewClient = false) ∧
      (p.GetString up key).p.ssmClient = some p.getSSMClient.1 ∧
      (p.GetString up key).p.Region = p.Region ∧
      (p.GetString up key).p.mapCache = p.mapCache := by
  rcases hup : up.GetParameter p.getSSMClient.1 (getParameterInput key) with ⟨out, err⟩
  cases err with
  | some e =>
    rw [GetString_err up p key out e h hup]
    exact ⟨[], rfl, by simp, getSSMClient_ssmClient p, getSSMClient_Region p,
      getSSMClient_mapCache p⟩
  | none =>
    rcases out with ⟨prm⟩
    cases prm with
    | none =>
      rw [GetString_nilParameter up p key h hup]
      exact ⟨[], rfl, by simp, getSSMClient_ssmClient p, getSSMClient_Region p,
        getSSMClient_mapCache p⟩
    | some prm =>
      cases hv : prm.Value with
      | none =>
        rw [GetString_nilValue up p key prm h hup hv]
        exact ⟨[], rfl, by simp, getSSMClient_ssmClient p, getSSMClient_Region p,
          getSSMClient_mapCache p⟩
      | some w =>
        rw [GetString_ok up p key prm w h hup hv]
        exact ⟨_, rfl, by simp [Event.isRequest, Event.isNewClient],
          getSSMClient_ssmClient p, getSSMClient_Region p, getSSMClient_mapCache p⟩

theorem GetStringMap_uncached_shape (up : Remote) (p : provider) (key : GoString)
    (h : p.mapCache key = none) :
    ∃ rest, (p.GetStringMap up key).trace =
        p.getSSMClient.2.2 ++
          Event.getParametersByPath p.getSSMClient.1 (getParametersByPathInput key) :: rest ∧
      (∀ e ∈ rest, e.isRequest = false ∧ e.isNewClient = false) ∧
      (p.GetStringMap up key).p.ssmClient = some p.getSSMClient.1 ∧
      (p.GetStringMap up key).p.Region = p.Region ∧
      (p.GetStringMap up key).p.paramsCache = p.paramsCache := by
  rcases hup : up.GetParametersByPath p.getSSMClient.1 (getParametersByPathInput key)
    with ⟨out, err⟩
  cases err with
  | some e =>
    rw [GetStringMap_err up p key out e h hup]
    exact ⟨[], rfl, by simp, getSSMClient_ssmClient p, getSSMClient_Region p,
      getSSMClient_paramsCache p⟩
  | none =>
    rcases out with ⟨params⟩
    by_cases hne : params = []
    · subst hne
      rw [GetStringMap_empty up p key h hup]
      exact ⟨[], rfl, by simp, getSSMClient_ssmClient p, getSSMClient_Region p,
        getSSMClient_paramsCache p⟩
    · cases hf : fillMap key params GoMap.empty with
      | error why =>
        rw [GetStringMap_panic up p key params why h hup hne hf]
        exact ⟨[], rfl, by simp, getSSMClient_ssmClient p, getSSMClient_Region p,
          getSSMClient_paramsCache p⟩
      | ok res =>
        rw [GetStringMap_ok up p key params res h hup hne hf]
        exact ⟨_, rfl, by simp [Event.isRequest, Event.isNewClient],
          getSSMClient_ssmClient p, getSSMClient_Region p, getSSMClient_paramsCache p⟩

theorem issuesRequest_of_shape (pre rest : List Event) (e : Event) (he : e.isRequest = true) :
    issuesRequest (pre ++ e :: rest) = true := by
  simp [issuesRequest, he]

/-! ## The scalar lookup -/

/-- C1, as stated, fails: a first `GetString` that succeeds with the blank
value `" "` stores it, the stored value is empty after trimming, and the
second `GetString` for the same key sends a request again; when the remote
store fails that second request, the second call returns an error instead of
the value. -/
theorem GetString_blank_value_fetched_again :
    ((New noRegion).GetString (answering (utf8 " ") []) (utf8 "k")).result
      = .ret (utf8 " ") none ∧
    issuesRequest
      ((((New noRegion).GetString (answering (utf8 " ") []) (utf8 "k")).p.GetString
        (answering (utf8 " ") []) (utf8 "k")).trace) = true ∧
    (((New noRegion).GetString (answering (utf8 " ") []) (utf8 "k")).p.GetString
        (failing (utf8 "down")) (utf8 "k")).result
      = .ret [] (some ⟨utf8 "get parameter: down"⟩) := by
  decide

/-- C1, amended: if `GetString(K)` returns successfully with a value `v` that is
not empty after trimming white space, then an immediately following
`GetString(K)` on the resulting state returns the identical value `v` with no
error, issues no remote request (its trace is empty) and leaves the state as it
is, whatever the remote store would answer. -/
theorem GetString_again_served_from_cache (up1 up2 : Remote) (p : provider)
    (K v : GoString)
    (h1 : (p.GetString up1 K).result = .ret v none)
    (hv : TrimSpace v ≠ []) :
    ((p.GetString up1 K).p.GetString up2 K).result = .ret v none ∧
    issuesRequest ((p.GetString up1 K).p.GetString up2 K).trace = false ∧
    ((p.GetString up1 K).p.GetString up2 K).trace = [] ∧
    ((p.GetString up1 K).p.GetString up2 K).p = (p.GetString up1 K).p := by
  have hcache : (p.GetString up1 K).p.paramsCache K = some v := by
    rcases GetString_success up1 p K v h1 with ⟨hc, _, hs⟩ | ⟨hs, prm, hup, hval⟩
    · rw [GetString_cached up1 p K hs]; exact hc
    · rw [GetString_ok up1 p K prm v hs hup hval]; simp [GoMap.set]
  have hs2 : (p.GetString up1 K).p.scalarCached K = true :=
    (scalarCached_iff _ K).2 ⟨v, hcache, hv⟩
  rw [GetString_cached up2 _ K hs2, hcache]
  simp [issuesRequest]

/-- Witness of the amended C1 statement: a fresh provider, the value `v`. -/
theorem GetString_again_served_from_cache_witness :
    (((New noRegion).GetString (answering (utf8 "v") []) (utf8 "k")).p.GetString
        (failing (utf8 "down")) (utf8 "k")).result = .ret (utf8 "v") none ∧
    issuesRequest (((New noRegion).GetString (answering (utf8 "v") []) (utf8 "k")).p.GetString
        (failing (utf8 "down")) (utf8 "k")).trace = false :=
  have h := GetString_again_served_from_cache (answering (utf8 "v") []) (failing (utf8 "down"))
    (New noRegion) (utf8 "k") (utf8 "v") (by decide) (by decide)
  ⟨h.1, h.2.1⟩

/-- C2: `GetString(key)` issues a remote request if and only if
`paramsCache[key]` is absent or is empty after trimming white space; when the
entry is present and not blank, `GetString` returns exactly the cached,
untrimmed value with no error, does nothing outside the provider and leaves
the provider (both caches and the client handle) unchanged. -/
theorem GetString_requests_iff_not_cached (up : Remote) (p : provider) (key : GoString) :
    (issuesRequest (p.GetString up key).trace = true ↔
      (p.paramsCache key = none ∨ ∃ v, p.paramsCache key = some v ∧ TrimSpace v = [])) ∧
    (∀ v, p.paramsCache key = some v → TrimSpace v ≠ [] →
      (p.GetString up key).result = .ret v none ∧
      (p.GetString up key).p = p ∧
      (p.GetString up key).trace = []) := by
  constructor
  · rw [← scalarCached_false_iff]
    cases hc : p.scalarCached key with
    | true => rw [GetString_cached up p key hc]; simp [issuesRequest]
    | false =>
      obtain ⟨rest, ht, -⟩ := GetString_uncached_shape up p key hc
      rw [ht]
      simp [issuesRequest_of_shape, Event.isRequest]
  · intro v hv ht
    have hc : p.scalarCached key = true := (scalarCached_iff p key).2 ⟨v, hv, ht⟩
    rw [GetString_cached up p key hc, hv]
    simp

/-- Witness of C2: a cached `k ↦ v` is answered without a request, a key that
is not cached is requested. -/
theorem GetString_requests_iff_not_cached_witness :
    (warm.GetString (failing (utf8 "down")) (utf8 "k")).result = .ret (utf8 "v") none ∧
    issuesRequest (warm.GetString (failing (utf8 "down")) (utf8 "j")).trace = true :=
  ⟨((GetString_requests_iff_not_cached (failing (utf8 "down")) warm (utf8 "k")).2
      (utf8 "v") (by decide) (by decide)).1,
    (GetString_requests_iff_not_cached (failing (utf8 "down")) warm (utf8 "j")).1.2
      (Or.inl (by decide))⟩

/-- C4: on a scalar cache miss, when the single-value request succeeds with a
result container that holds the value `v`, `GetString(key)` returns `(v, nil)`
and afterwards `paramsCache[key] = v`, every other `paramsCache` entry is as
before and `mapCache` is entirely unchanged; symmetrically, a `GetStringMap(key)`
that returns `m` without error leaves `paramsCache` entirely unchanged, has
`mapCache[key] = m` afterwards and every other `mapCache` entry as before. -/
theorem caches_are_independent (up : Remote) (p : provider) (key : GoString) :
    (∀ (prm : Parameter) (v : GoString), p.scalarCached key = false →
      up.GetParameter p.getSSMClient.1 (getParameterInput key) = (⟨some prm⟩, none) →
      prm.Value = some v →
        (p.GetString up key).result = .ret v none ∧
        (p.GetString up key).p.paramsCache key = some v ∧
        (∀ k, k ≠ key → (p.GetString up key).p.paramsCache k = p.paramsCache k) ∧
        (p.GetString up key).p.mapCache = p.mapCache) ∧
    (∀ m : AnyMap, (p.GetStringMap up key).result = .ret m none →
        (p.GetStringMap up key).p.paramsCache = p.paramsCache ∧
        (p.GetStringMap up key).p.mapCache key = some m ∧
        (∀ k, k ≠ key → (p.GetStringMap up key).p.mapCache k = p.mapCache k)) := by
  constructor
  · intro prm v hc hup hv
    rw [GetString_ok up p key prm v hc hup hv]
    refine ⟨rfl, by simp [GoMap.set], ?_, getSSMClient_mapCache p⟩
    intro k hk
    simp [GoMap.set, hk]
  · intro m h
    rcases GetStringMap_success up p key m h with hc | ⟨hc, params, res, hup, hne, hf, hm⟩
    · rw [GetStringMap_cached up p key m hc]
      exact ⟨rfl, hc, fun _ _ => rfl⟩
    · rw [GetStringMap_ok up p key params res hc hup hne hf]
      subst hm
      refine ⟨getSSMClient_paramsCache p, by simp [GoMap.set], ?_⟩
      intro k hk
      simp [GoMap.set, hk]

/-- Witness of C4: on the provider `warm`, fetching `j` as a scalar stores
`j ↦ x` and keeps `k ↦ v`; fetching `/app/prod` as a mapping keeps the scalar
cache. -/
theorem caches_are_independent_witness :
    (warm.GetString (answering (utf8 "x") []) (utf8 "j")).result = .ret (utf8 "x") none ∧
    (warm.GetString (answering (utf8 "x") []) (utf8 "j")).p.paramsCache (utf8 "j")
      = some (utf8 "x") ∧
    (warm.GetString (answering (utf8 "x") []) (utf8 "j")).p.paramsCache (utf8 "k")
      = warm.paramsCache (utf8 "k") ∧
    (warm.GetStringMap (answering [] []) (utf8 "k")).p.paramsCache = warm.paramsCache :=
  have h := (caches_are_independent (answering (utf8 "x") []) warm (utf8 "j")).1
    ⟨some (utf8 "j"), some (utf8 "x")⟩ (utf8 "x") (by decide) rfl rfl
  ⟨h.1, h.2.1, h.2.2.1 (utf8 "k") (by decide),
    ((caches_are_independent (answering [] []) warm (utf8 "k")).2 (some GoMap.empty) rfl).1⟩

/-- C5: when the upstream call returns an error, `GetString` (on a scalar cache
miss) returns `""` together with the error `get parameter: <cause>`, and
`GetStringMap` (on a mapping cache miss) returns the nil mapping together with
the error `ssm: get parameters by path: <cause>`; both leave `paramsCache` and
`mapCache` exactly as they were. -/
theorem upstream_error_wrapped (up : Remote) (p : provider) (key : GoString)
    (cause : GoError) :
    (∀ out, p.scalarCached key = false →
      up.GetParameter p.getSSMClient.1 (getParameterInput key) = (out, some cause) →
        (p.GetString up key).result
          = .ret [] (some ⟨utf8 "get parameter: " ++ cause.Error⟩) ∧
        (p.GetString up key).p.paramsCache = p.paramsCache ∧
        (p.GetString up key).p.mapCache = p.mapCache) ∧
    (∀ out, p.mapCache key = none →
      up.GetParametersByPath p.getSSMClient.1 (getParametersByPathInput key)
        = (out, some cause) →
        (p.GetStringMap up key).result
          = .ret none (some ⟨utf8 "ssm: get parameters by path: " ++ cause.Error⟩) ∧
        (p.GetStringMap up key).p.paramsCache = p.paramsCache ∧
        (p.GetStringMap up key).p.mapCache = p.mapCache) := by
  constructor
  · intro out hc hup
    rw [GetString_err up p key out cause hc hup]
    exact ⟨rfl, getSSMClient_paramsCache p, getSSMClient_mapCache p⟩
  · intro out hc hup
    rw [GetStringMap_err up p key out cause hc hup]
    exact ⟨rfl, getSSMClient_paramsCache p, getSSMClient_mapCache p⟩

/-- Witness of C5: the remote store is down, the provider is fresh. -/
theorem upstream_error_wrapped_witness :
    ((New noRegion).GetString (failing (utf8 "down")) (utf8 "k")).result
      = .ret [] (some ⟨utf8 "get parameter: down"⟩) ∧
    ((New noRegion).GetStringMap (failing (utf8 "down")) (utf8 "k")).result
      = .ret none (some ⟨utf8 "ssm: get parameters by path: down"⟩) :=
  have h := upstream_error_wrapped (failing (utf8 "down")) (New noRegion) (utf8 "k")
    ⟨utf8 "down"⟩
  ⟨(h.1 ⟨none⟩ (by decide) rfl).1, (h.2 ⟨[]⟩ rfl rfl).1⟩

/-- C7: on a scalar cache miss, once the single-value request has succeeded
with the output `out`: `GetString` fails, returning `""` and leaving
`paramsCache` unchanged, when the result container is absent, and also when
the container is present and its value field is absent; the two errors differ
from each other and from every upstream error `get parameter: <cause>`; and
when container and value are both present `GetString` returns the value with
no error. -/
theorem missing_result_errors (up : Remote) (p : provider) (key : GoString)
    (out : GetParameterOutput)
    (hmiss : p.scalarCached key = false)
    (hup : up.GetParameter p.getSSMClient.1 (getParameterInput key) = (out, none)) :
    (out.Parameter = none →
      (p.GetString up key).result
        = .ret [] (some ⟨utf8 "datasource.ssm.Get() out.Parameter is nil"⟩) ∧
      (p.GetString up key).p.paramsCache = p.paramsCache) ∧
    (∀ prm, out.Parameter = some prm → prm.Value = none →
      (p.GetString up key).result
        = .ret [] (some ⟨utf8 "datasource.ssm.Get() out.Parameter.Value is nil"⟩) ∧
      (p.GetString up key).p.paramsCache = p.paramsCache) ∧
    (∀ prm v, out.Parameter = some prm → prm.Value = some v →
      (p.GetString up key).result = .ret v none) ∧
    (⟨utf8 "datasource.ssm.Get() out.Parameter is nil"⟩ : GoError)
      ≠ ⟨utf8 "datasource.ssm.Get() out.Parameter.Value is nil"⟩ ∧
    (∀ cause : GoError,
      fmt.Errorf (utf8 "get parameter: ") cause
        ≠ ⟨utf8 "datasource.ssm.Get() out.Parameter is nil"⟩ ∧
      fmt.Errorf (utf8 "get parameter: ") cause
        ≠ ⟨utf8 "datasource.ssm.Get() out.Parameter.Value is nil"⟩) := by
  rcases out with ⟨op⟩
  refine ⟨?_, ?_, ?_, by decide, ?_⟩
  · intro h
    simp only at h
    subst h
    rw [GetString_nilParameter up p key hmiss hup]
    exact ⟨rfl, getSSMClient_paramsCache p⟩
  · intro prm h hv
    simp only at h
    subst h
    rw [GetString_nilValue up p key prm hmiss hup hv]
    exact ⟨rfl, getSSMClient_paramsCache p⟩
  · intro prm v h hv
    simp only at h
    subst h
    rw [GetString_ok up p key prm v hmiss hup hv]
  · intro cause
    have hg : utf8 "get parameter: " = 103 :: utf8 "et parameter: " := by decide
    have h1 : utf8 "datasource.ssm.Get() out.Parameter is nil"
        = 100 :: utf8 "atasource.ssm.Get() out.Parameter is nil" := by decide
    have h2 : utf8 "datasource.ssm.Get() out.Parameter.Value is nil"
        = 100 :: utf8 "atasource.ssm.Get() out.Parameter.Value is nil" := by decide
    rw [hg, h1, h2]
    constructor <;> simp [fmt.Errorf]

/-- Witness of C7: a fresh provider and an answer without a result container. -/
theorem missing_result_errors_witness :
    ((New noRegion).GetString (containing none) (utf8 "k")).result
      = .ret [] (some ⟨utf8 "datasource.ssm.Get() out.Parameter is nil"⟩) :=
  ((missing_result_errors (containing none) (New noRegion) (utf8 "k") ⟨none⟩
    (by decide) rfl).1 rfl).1

/-! ## The mapping lookup -/

theorem appProd_fetched :
    ((New noRegion).GetStringMap (answering [] (listing (utf8 "/app/prod") appProd))
      (utf8 "/app/prod")).result = .ret (some (pairsMap appProd)) none := by
  rw [GetStringMap_ok (answering [] (listing (utf8 "/app/prod") appProd)) (New noRegion)
    (utf8 "/app/prod") (listing (utf8 "/app/prod") appProd) (pairsMap appProd) rfl rfl
    (by decide) (by rw [fillMap_listing, foldl_set_empty])]

/-- C3: on a mapping cache miss, for a non-empty upstream listing whose entries
are named `key + "/" + shortName_i` with values `v_i`, `GetStringMap(key)`
returns with no error the mapping that holds exactly the pairs
`shortName_i ↦ v_i` (each short name being the full name without its first
`len(key)+1` bytes, a later entry overriding an earlier one with the same short
name) and stores that same mapping in `mapCache[key]`. -/
theorem GetStringMap_short_names (up : Remote) (p : provider) (key : GoString)
    (entries : List (GoString × GoString))
    (hmiss : p.mapCache key = none)
    (hne : entries ≠ [])
    (hup : up.GetParametersByPath p.getSSMClient.1 (getParametersByPathInput key)
      = (⟨listing key entries⟩, none)) :
    (p.GetStringMap up key).result = .ret (some (pairsMap entries)) none ∧
    (p.GetStringMap up key).p.mapCache key = some (some (pairsMap entries)) ∧
    (∀ e ∈ entries, (key ++ utf8 "/" ++ e.1).drop (key.length + 1) = e.1) := by
  have hl : listing key entries ≠ [] := by
    cases entries with
    | nil => exact absurd rfl hne
    | cons e es => simp [listing]
  have hf : fillMap key (listing key entries) GoMap.empty = .ok (pairsMap entries) := by
    rw [fillMap_listing, foldl_set_empty]
  rw [GetStringMap_ok up p key _ _ hmiss hup hl hf]
  exact ⟨rfl, by simp [GoMap.set], fun e _ => drop_key_slash key e.1⟩

/-- Witness of C3, the example of the specification: the key `/app/prod` with
the entries `/app/prod/db_host = "h"` and `/app/prod/db_port = "5432"` yields
the mapping with `db_host ↦ "h"`, `db_port ↦ "5432"` and nothing else. -/
theorem GetStringMap_short_names_witness :
    ∃ m : GoMap Iface,
      ((New noRegion).GetStringMap (answering [] (listing (utf8 "/app/prod") appProd))
        (utf8 "/app/prod")).result = .ret (some m) none ∧
      m (utf8 "db_host") = some (Iface.str (utf8 "h")) ∧
      m (utf8 "db_port") = some (Iface.str (utf8 "5432")) ∧
      ∀ k, k ≠ utf8 "db_host" → k ≠ utf8 "db_port" → m k = none :=
  ⟨pairsMap appProd,
    (GetStringMap_short_names (answering [] (listing (utf8 "/app/prod") appProd))
      (New noRegion) (utf8 "/app/prod") appProd rfl (by decide) rfl).1,
    by decide, by decide, by
      intro k h1 h2
      have e1 : ¬ utf8 "db_host" = k := fun h => h1 h.symm
      have e2 : ¬ utf8 "db_port" = k := fun h => h2 h.symm
      simp [pairsMap, appProd, List.find?, e1, e2]⟩

/-- C6: on a mapping cache miss, when the listing succeeds with zero entries,
`GetStringMap(key)` returns the nil mapping together with the error
`ssm: out.Parameters is empty`; afterwards `mapCache` has no entry for `key`,
both caches are unchanged, and a later `GetStringMap(key)` issues a remote
request again. -/
theorem empty_listing_is_an_error (up : Remote) (p : provider) (key : GoString)
    (hmiss : p.mapCache key = none)
    (hup : up.GetParametersByPath p.getSSMClient.1 (getParametersByPathInput key)
      = (⟨[]⟩, none)) :
    (p.GetStringMap up key).result
      = .ret none (some ⟨utf8 "ssm: out.Parameters is empty"⟩) ∧
    (p.GetStringMap up key).p.mapCache key = none ∧
    (p.GetStringMap up key).p.paramsCache = p.paramsCache ∧
    (p.GetStringMap up key).p.mapCache = p.mapCache ∧
    (∀ up2 : Remote, issuesRequest ((p.GetStringMap up key).p.GetStringMap up2 key).trace = true) := by
  have hm : (p.GetStringMap up key).p.mapCache = p.mapCache := by
    rw [GetStringMap_empty up p key hmiss hup]; exact getSSMClient_mapCache p
  have hk : (p.GetStringMap up key).p.mapCache key = none := by rw [hm]; exact hmiss
  refine ⟨?_, hk, ?_, hm, ?_⟩
  · rw [GetStringMap_empty up p key hmiss hup]; rfl
  · rw [GetStringMap_empty up p key hmiss hup]; exact getSSMClient_paramsCache p
  · intro up2
    obtain ⟨rest, ht, -⟩ := GetStringMap_uncached_shape up2 _ key hk
    rw [ht]
    exact issuesRequest_of_shape _ _ _ rfl

/-- Witness of C6: a fresh provider and a remote store with nothing under the
key. -/
theorem empty_listing_is_an_error_witness :
    ((New noRegion).GetStringMap (answering [] []) (utf8 "k")).result
      = .ret none (some ⟨utf8 "ssm: out.Parameters is empty"⟩) ∧
    issuesRequest (((New noRegion).GetStringMap (answering [] []) (utf8 "k")).p.GetStringMap
      (answering [] []) (utf8 "k")).trace = true :=
  have h := empty_listing_is_an_error (answering [] []) (New noRegion) (utf8 "k") rfl rfl
  ⟨h.1, h.2.2.2.2 (answering [] [])⟩

/-- C8: whenever `mapCache[K]` is present (whatever it holds, the empty mapping
and the nil mapping included) `GetStringMap(K)` returns that cached mapping with
no error, does nothing outside the provider and leaves the provider unchanged;
and after any `GetStringMap(K)` that returned `m` without error, an immediately
following `GetStringMap(K)` returns `m` without a request, whatever the remote
store would answer. -/
theorem GetStringMap_cached_is_final (up up2 : Remote) (p : provider) (K : GoString) :
    (∀ m : AnyMap, p.mapCache K = some m →
      (p.GetStringMap up K).result = .ret m none ∧
      (p.GetStringMap up K).trace = [] ∧
      issuesRequest (p.GetStringMap up K).trace = false ∧
      (p.GetStringMap up K).p = p) ∧
    (∀ m : AnyMap, (p.GetStringMap up K).result = .ret m none →
      ((p.GetStringMap up K).p.GetStringMap up2 K).result = .ret m none ∧
      ((p.GetStringMap up K).p.GetStringMap up2 K).trace = [] ∧
      issuesRequest ((p.GetStringMap up K).p.GetStringMap up2 K).trace = false ∧
      ((p.GetStringMap up K).p.GetStringMap up2 K).p = (p.GetStringMap up K).p) := by
  have hit : ∀ (u : Remote) (q : provider) (m : AnyMap), q.mapCache K = some m →
      (q.GetStringMap u K).result = .ret m none ∧
      (q.GetStringMap u K).trace = [] ∧
      issuesRequest (q.GetStringMap u K).trace = false ∧
      (q.GetStringMap u K).p = q := by
    intro u q m h
    rw [GetStringMap_cached u q K m h]
    exact ⟨rfl, rfl, rfl, rfl⟩
  refine ⟨hit up p, ?_⟩
  intro m h
  apply hit
  rcases GetStringMap_success up p K m h with hc | ⟨hc, params, res, hup, hne, hf, hm⟩
  · rw [GetStringMap_cached up p K m hc]; exact hc
  · rw [GetStringMap_ok up p K params res hc hup hne hf, hm]
    simp [GoMap.set]

/-- Witness of C8: the provider `warm` caches the empty mapping for `k`, and a
fresh provider answers `/app/prod` from its cache the second time, although the
remote store is down by then. -/
theorem GetStringMap_cached_is_final_witness :
    (warm.GetStringMap (failing (utf8 "down")) (utf8 "k")).result
      = .ret (some GoMap.empty) none ∧
    (((New noRegion).GetStringMap (answering [] (listing (utf8 "/app/prod") appProd))
        (utf8 "/app/prod")).p.GetStringMap (failing (utf8 "down")) (utf8 "/app/prod")).result
      = .ret (some (pairsMap appProd)) none :=
  ⟨((GetStringMap_cached_is_final (failing (utf8 "down")) (failing (utf8 "down")) warm
      (utf8 "k")).1 (some GoMap.empty) rfl).1,
    ((GetStringMap_cached_is_final (answering [] (listing (utf8 "/app/prod") appProd))
      (failing (utf8 "down")) (New noRegion) (utf8 "/app/prod")).2 (some (pairsMap appProd))
      appProd_fetched).1⟩

theorem fillMap_ok_of_long_names (key : GoString) (params : List (Option Parameter))
    (res : GoMap Iface)
    (h : ∀ e ∈ params, longNamed key e = true) :
    ∃ m, fillMap key params res = .ok m := by
  induction params generalizing res with
  | nil => exact ⟨res, rfl⟩
  | cons e es ih =>
    have he := h e (List.mem_cons_self e es)
    obtain ⟨name, v, rfl⟩ : ∃ name v, e = some ⟨some name, some v⟩ := by
      rcases e with _ | ⟨_ | name, _ | v⟩ <;> simp [longNamed] at he
      exact ⟨name, v, rfl⟩
    have hlen : key.length + 1 ≤ name.length := by simpa [longNamed] using he
    have hlt : ¬ name.length < key.length + 1 := by omega
    simp only [fillMap, if_neg hlt]
    exact ih _ (fun e' he' => h e' (List.mem_cons_of_mem _ he'))

/-- C10: on a mapping cache miss, for a non-empty upstream listing in which
every entry has a name and a value and every name has at least `len(key)+1`
bytes, `GetStringMap` does not panic on the slice `name[len(key)+1:]` and
returns a mapping with no error; the code does not check the precondition: for
the listing whose one entry is named `key` itself (a name of `len(key)` bytes)
the slice is out of range and the call panics. -/
theorem slice_in_bounds_under_precondition (up : Remote) (p : provider) (key : GoString)
    (params : List (Option Parameter))
    (hmiss : p.mapCache key = none)
    (hup : up.GetParametersByPath p.getSSMClient.1 (getParametersByPathInput key)
      = (⟨params⟩, none))
    (hne : params ≠ [])
    (hlong : ∀ e ∈ params, longNamed key e = true) :
    (∃ m, (p.GetStringMap up key).result = .ret (some m) none) ∧
    (p.GetStringMap up key).result ≠ .panic .sliceBounds ∧
    (∃ name v, name.length ≤ key.length ∧
      (p.GetStringMap (answering [] [some ⟨some name, some v⟩]) key).result
        = .panic .sliceBounds) := by
  obtain ⟨m, hm⟩ := fillMap_ok_of_long_names key params GoMap.empty hlong
  refine ⟨⟨m, ?_⟩, ?_, key, [], le_refl _, ?_⟩
  · rw [GetStringMap_ok up p key params m hmiss hup hne hm]
  · rw [GetStringMap_ok up p key params m hmiss hup hne hm]; simp
  · rw [GetStringMap_panic (answering [] [some ⟨some key, some []⟩]) p key
      [some ⟨some key, some []⟩] .sliceBounds hmiss rfl (by simp) (by simp [fillMap])]

/-- Witness of C10: the two entries under `/app/prod` satisfy the
precondition. -/
theorem slice_in_bounds_under_precondition_witness :
    ∃ m, ((New noRegion).GetStringMap (answering [] (listing (utf8 "/app/prod") appProd))
      (utf8 "/app/prod")).result = .ret (some m) none :=
  (slice_in_bounds_under_precondition (answering [] (listing (utf8 "/app/prod") appProd))
    (New noRegion) (utf8 "/app/prod") (listing (utf8 "/app/prod") appProd) rfl rfl
    (by decide) (by decide)).1

/-! ## Sequences of calls: the client handle -/

theorem run_cached (c : Call) (p : provider) (h : c.cached p = true) :
    c.run p = (p, []) := by
  cases c with
  | getString up key =>
    simp only [Call.cached] at h
    simp only [Call.run, GetString_cached up p key h]
  | getStringMap up key =>
    simp only [Call.cached, provider.mapCached] at h
    obtain ⟨m, hm⟩ := Option.isSome_iff_exists.1 h
    simp only [Call.run, GetStringMap_cached up p key m hm]

theorem run_uncached (c : Call) (p : provider) (h : c.cached p = false) :
    ∃ req rest, (c.run p).2 = p.getSSMClient.2.2 ++ req :: rest ∧
      req.isRequest = true ∧ req.isNewClient = false ∧
      req.client? = some p.getSSMClient.1 ∧
      (∀ e ∈ rest, e.isRequest = false ∧ e.isNewClient = false) ∧
      (c.run p).1.ssmClient = some p.getSSMClient.1 ∧
      (c.run p).1.Region = p.Region := by
  cases c with
  | getString up key =>
    simp only [Call.cached] at h
    obtain ⟨rest, ht, hr, hc, hreg, -⟩ := GetString_uncached_shape up p key h
    exact ⟨_, rest, ht, rfl, rfl, rfl, hr, hc, hreg⟩
  | getStringMap up key =>
    simp only [Call.cached, provider.mapCached] at h
    have hm : p.mapCache key = none := by
      cases hk : p.mapCache key with
      | none => rfl
      | some m => rw [hk] at h; simp at h
    obtain ⟨rest, ht, hr, hc, hreg, -⟩ := GetStringMap_uncached_shape up p key hm
    exact ⟨_, rest, ht, rfl, rfl, rfl, hr, hc, hreg⟩

/-- With a handle already in place, no call of a sequence constructs one and
every request goes through that handle. -/
theorem runCalls_with_client (calls : List Call) (p : provider) (c : SSM)
    (hc : p.ssmClient = some c) :
    ∀ s ∈ runCalls calls p,
      (s.cached = true → s.trace = []) ∧
      (s.cached = false → issuesRequest s.trace = true) ∧
      ∀ e ∈ s.trace, e.isNewClient = false ∧ (e.isRequest = true → e.client? = some c) := by
  induction calls generalizing p with
  | nil => intro s hs; simp [runCalls] at hs
  | cons call cs ih =>
    intro s hs
    simp only [runCalls, List.mem_cons] at hs
    have hget := getSSMClient_of_some p c hc
    cases hk : call.cached p with
    | true =>
      have hrun := run_cached call p hk
      rcases hs with rfl | hs
      · simp [hrun, hk]
      · rw [hrun] at hs
        exact ih p hc s hs
    | false =>
      obtain ⟨req, rest, ht, hreq, hnew, hcl, hrest, hcl', -⟩ := run_uncached call p hk
      rw [hget] at ht hcl hcl'
      simp only [List.nil_append] at ht
      rcases hs with rfl | hs
      · refine ⟨fun h => by simp [hk] at h, fun _ => ?_, ?_⟩
        · simp only [ht]
          exact issuesRequest_of_shape [] rest req hreq
        · intro e he
          simp only [ht, List.mem_cons] at he
          rcases he with rfl | he
          · exact ⟨hnew, fun _ => hcl⟩
          · exact ⟨(hrest e he).2, fun h => by rw [(hrest e he).1] at h; simp at h⟩
      · exact ih _ hcl' s hs

theorem countP_eq_zero_of_all (steps : List Step)
    (h : ∀ s ∈ steps, ∀ e ∈ s.trace, e.isNewClient = false) :
    constructions steps = 0 := by
  unfold constructions allEvents
  rw [List.countP_eq_zero]
  intro e he
  obtain ⟨s, hs, hes⟩ := List.mem_flatMap.1 he
  simp [h s hs e hes]

/-- Without a handle, a sequence of calls constructs one at the first call
that is not answered from its cache, for the provider's region, and nowhere
else. -/
theorem runCalls_without_client (calls : List Call) (p : provider)
    (hc : p.ssmClient = none) :
    constructions (runCalls calls p) ≤ 1 ∧
    (∀ pre s post, runCalls calls p = pre ++ s :: post →
      (constructsClient s.trace = true ↔ (s.cached = false ∧ ∀ s' ∈ pre, s'.cached = true))) ∧
    (∀ s ∈ runCalls calls p,
      (s.cached = true → s.trace = []) ∧
      (s.cached = false → issuesRequest s.trace = true) ∧
      ∀ e ∈ s.trace,
        (e.isNewClient = true → e = Event.newClient (configFor p.Region)) ∧
        (e.isRequest = true →
          e.client? = some (SSM.New (session.New (configFor p.Region))))) := by
  induction calls generalizing p with
  | nil =>
    refine ⟨by simp [runCalls, constructions, allEvents], ?_, ?_⟩
    · intro pre s post h; simp [runCalls] at h
    · intro s hs; simp [runCalls] at hs
  | cons call cs ih =>
    cases hk : call.cached p with
    | true =>
      have hrun := run_cached call p hk
      obtain ⟨h1, h2, h3⟩ := ih p hc
      have hcons : runCalls (call :: cs) p = ⟨true, []⟩ :: runCalls cs p := by
        simp [runCalls, hrun, hk]
      rw [hcons]
      refine ⟨?_, ?_, ?_⟩
      · simpa [constructions, allEvents] using h1
      · intro pre s post h
        cases pre with
        | nil =>
          simp only [List.nil_append, List.cons.injEq] at h
          rw [← h.1]
          simp [constructsClient]
        | cons s0 pre' =>
          simp only [List.cons_append, List.cons.injEq] at h
          rw [h2 pre' s post h.2, ← h.1]
          simp
      · intro s hs
        rcases List.mem_cons.1 hs with rfl | hs
        · simp
        · exact h3 s hs
    | false =>
      obtain ⟨req, rest, ht, hreq, hnew, hcl, hrest, hcl', -⟩ := run_uncached call p hk
      rw [getSSMClient_of_none p hc] at ht hcl hcl'
      simp only at ht hcl hcl'
      have htail := runCalls_with_client cs (call.run p).1 _ hcl'
      have hcons : runCalls (call :: cs) p =
          ⟨false, Event.newClient (configFor p.Region) :: req :: rest⟩
            :: runCalls cs (call.run p).1 := by
        simp [runCalls, hk, ht]
      have hrest0 : rest.countP Event.isNewClient = 0 := by
        rw [List.countP_eq_zero]; intro e he; simp [(hrest e he).2]
      have htail0 : constructions (runCalls cs (call.run p).1) = 0 :=
        countP_eq_zero_of_all _ (fun s hs e he => ((htail s hs).2.2 e he).1)
      rw [hcons]
      refine ⟨?_, ?_, ?_⟩
      · unfold constructions allEvents at htail0 ⊢
        simp [List.countP_cons, List.countP_append, htail0, hrest0, hnew]
        split <;> omega
      · intro pre s post h
        cases pre with
        | nil =>
          simp only [List.nil_append, List.cons.injEq] at h
          rw [← h.1]
          simp [constructsClient, Event.isNewClient]
        | cons s0 pre' =>
          simp only [List.cons_append, List.cons.injEq] at h
          have hs : s ∈ runCalls cs (call.run p).1 := by
            rw [h.2]; simp
          have hno : constructsClient s.trace = false := by
            unfold constructsClient
            rw [List.any_eq_false]
            intro e he
            simp [((htail s hs).2.2 e he).1]
          rw [hno, ← h.1]
          simp
      · intro s hs
        rcases List.mem_cons.1 hs with rfl | hs
        · refine ⟨fun h => by simp at h, fun _ => ?_, ?_⟩
          · exact issuesRequest_of_shape [Event.newClient (configFor p.Region)] rest req hreq
          · intro e he
            simp only [List.mem_cons] at he
            rcases he with rfl | rfl | he
            · exact ⟨fun _ => rfl, fun h => by simp [Event.isRequest] at h⟩
            · exact ⟨fun h => by rw [hnew] at h; simp at h, fun _ => hcl⟩
            · exact ⟨fun h => by rw [(hrest e he).2] at h; simp at h,
                fun h => by rw [(hrest e he).1] at h; simp at h⟩
        · obtain ⟨a, b, c⟩ := htail s hs
          exact ⟨a, b, fun e he =>
            ⟨fun h => by rw [(c e he).1] at h; simp at h, (c e he).2⟩⟩

/-- C9, client construct-once: for every provider created by `New` and every
sequence of `GetString` / `GetStringMap` calls on it, whatever the keys and
the upstream outcomes, (1) at most one client handle is constructed; (2) a call
constructs one exactly when it is not answered from its cache and every
earlier call was; (3) the handle is configured with the provider's `Region`
when it is non-empty and with the default configuration when it is empty;
(4) every request of the sequence goes through that one handle; (5) a call
answered from its cache does nothing outside the provider, and every other
call issues a request. -/
theorem client_constructed_once (cfg : StaticConfig) (calls : List Call) :
    constructions (runCalls calls (New cfg)) ≤ 1 ∧
    (∀ pre s post, runCalls calls (New cfg) = pre ++ s :: post →
      (constructsClient s.trace = true ↔
        (s.cached = false ∧ ∀ s' ∈ pre, s'.cached = true))) ∧
    (∀ e ∈ allEvents (runCalls calls (New cfg)), e.isNewClient = true →
      ((New cfg).Region ≠ [] →
        e = Event.newClient (NewConfig.WithRegion (New cfg).Region)) ∧
      ((New cfg).Region = [] → e = Event.newClient NewConfig)) ∧
    (∀ e ∈ allEvents (runCalls calls (New cfg)), e.isRequest = true →
      e.client? = some (SSM.New (session.New (configFor (New cfg).Region)))) ∧
    (∀ s ∈ runCalls calls (New cfg),
      (s.cached = true → s.trace = []) ∧
      (s.cached = false → issuesRequest s.trace = true)) := by
  obtain ⟨h1, h2, h3⟩ := runCalls_without_client calls (New cfg) rfl
  refine ⟨h1, h2, ?_, ?_, fun s hs => ⟨(h3 s hs).1, (h3 s hs).2.1⟩⟩
  · intro e he hnew
    obtain ⟨s, hs, hes⟩ := List.mem_flatMap.1 he
    have h := ((h3 s hs).2.2 e hes).1 hnew
    constructor
    · intro hr; rw [h, configFor, if_pos hr]
    · intro hr; rw [h, configFor, if_neg (not_not.2 hr)]
  · intro e he hreq
    obtain ⟨s, hs, hes⟩ := List.mem_flatMap.1 he
    exact ((h3 s hs).2.2 e hes).2 hreq

/-- Witness of C9: three calls on a provider configured for `eu-west-1`
construct exactly one handle, for that region. -/
theorem client_constructed_once_witness :
    constructions (runCalls threeCalls (New euWest)) = 1 ∧
    ∀ e ∈ allEvents (runCalls threeCalls (New euWest)), e.isNewClient = true →
      e = Event.newClient ⟨some (utf8 "eu-west-1")⟩ :=
  ⟨by decide, fun e he hnew =>
    ((client_constructed_once euWest threeCalls).2.2.1 e he hnew).1 (by decide)⟩

end ssm
